import Mathlib

/-!
Verification development for the productivity-and-factor-shares pipeline.

The pipeline (src/build_dataset.py, src/analysis.py, src/stationarity.py,
src/fred_client.py, src/cli.py) merges four quarterly FRED series on date,
computes derived columns (log-difference productivity growth, factor shares,
year-over-year deltas), drops rows with missing values, fits OLS regressions
with Newey-West HAC t-statistics, and combines ADF/KPSS stationarity tests.

Numeric columns are modelled by an IEEE-754-style extended value type over an
ordered field: a finite value, a signed infinity, or NaN.  NaN is the missing
value marker (pandas NA semantics: dropna removes NaN but keeps infinities).
The mathematical logarithm used by numpy is threaded through as a function
parameter on the strictly positive finite case, so the pipeline definitions
stay computable and can be instantiated at the rationals for evaluation and
at the reals with Real.log for the statements about ln.
-/

/-- Extended float value: NaN, a signed infinity (true is plus infinity), or a
finite value.  Models the float64 entries of the pandas columns. -/
inductive FVal (α : Type) where
  | nan : FVal α
  | inf : Bool → FVal α
  | val : α → FVal α
deriving DecidableEq

namespace FVal

variable {α : Type} [LinearOrderedField α]

/-- Missing-value test: pandas isna is true exactly on NaN, not on infinities. -/
def isNan : FVal α → Bool
  | nan => true
  | _ => false

/-- IEEE-style subtraction on extended values. -/
def sub : FVal α → FVal α → FVal α
  | nan, _ => nan
  | inf _, nan => nan
  | inf s, inf t => if s = t then nan else inf s
  | inf s, val _ => inf s
  | val _, nan => nan
  | val _, inf s => inf (!s)
  | val a, val b => val (a - b)

/-- IEEE-style multiplication on extended values. -/
def mul : FVal α → FVal α → FVal α
  | nan, _ => nan
  | inf _, nan => nan
  | inf s, inf t => inf (s == t)
  | inf s, val b => if 0 < b then inf s else if b < 0 then inf (!s) else nan
  | val _, nan => nan
  | val a, inf s => if 0 < a then inf s else if a < 0 then inf (!s) else nan
  | val a, val b => val (a * b)

/-- IEEE-style division on extended values; a zero denominator coming from the
data is a positive zero, so a positive numerator gives plus infinity. -/
def div : FVal α → FVal α → FVal α
  | nan, _ => nan
  | inf _, nan => nan
  | inf _, inf _ => nan
  | inf s, val b => if b < 0 then inf (!s) else inf s
  | val _, nan => nan
  | val _, inf _ => val 0
  | val a, val b =>
      if b = 0 then (if 0 < a then inf true else if a < 0 then inf false else nan)
      else val (a / b)

/-- numpy log lifted to extended values: NaN and negative arguments give NaN,
zero gives minus infinity, plus infinity is fixed; the strictly positive
finite case delegates to the mathematical logarithm lg. -/
def applyLog (lg : α → α) : FVal α → FVal α
  | nan => nan
  | inf s => if s then inf true else nan
  | val a => if 0 < a then val (lg a) else if a = 0 then inf false else nan

end FVal

/-- One raw series table as loaded by the FRED client: (date, value) rows. -/
abbrev Table (α : Type) := List (ℤ × FVal α)

/-- A merged frame: one row per date, one value slot per input series, in the
order the series tables were merged. -/
abbrev Frame (α : Type) := List (ℤ × List (FVal α))

/-- Join-key lookup used by the outer merge: the value table t holds at date d,
NaN when the table has no observation at d. -/
def lookupDate {α : Type} (t : Table α) (d : ℤ) : FVal α :=
  match t.find? (fun p => p.1 == d) with
  | some p => p.2
  | none => FVal.nan

/-- One step of the pandas outer merge on the date key: every row of the
accumulated frame m (holding c columns) gains the matching value of t, and the
dates of t absent from m are appended as new rows with NaN in the c old
columns.  The final sort normalises the row order, so appending models the
union of keys that pandas produces. -/
def outerJoin {α : Type} (m : Frame α) (c : ℕ) (t : Table α) : Frame α :=
  m.map (fun r => (r.1, r.2 ++ [lookupDate t r.1]))
    ++ (t.filter (fun p => !(m.any (fun r => r.1 == p.1)))).map
        (fun p => (p.1, List.replicate c FVal.nan ++ [p.2]))

/-- Fold of outerJoin over the remaining tables, tracking the column count. -/
def joinAll {α : Type} (m : Frame α) (c : ℕ) : List (Table α) → Frame α
  | [] => m
  | t :: ts => joinAll (outerJoin m c t) (c + 1) ts

/-- Date order on frame rows, for the final sort_values on the date column. -/
def frameLe {α : Type} (p q : ℤ × List (FVal α)) : Prop := p.1 ≤ q.1

instance {α : Type} : DecidableRel (@frameLe α) :=
  fun p q => inferInstanceAs (Decidable (p.1 ≤ q.1))

instance {α : Type} : IsTotal (ℤ × List (FVal α)) (@frameLe α) :=
  ⟨fun p q => Int.le_total p.1 q.1⟩

instance {α : Type} : IsTrans (ℤ × List (FVal α)) (@frameLe α) :=
  ⟨fun _ _ _ h h' => le_trans h h'⟩

/-- merge_series on a non-empty dict of series tables: start from the first
table as a one-column frame, outer-join the rest on date one by one, then
sort by date ascending (reset_index is the identity on the list model). -/
def merge1 {α : Type} (t : Table α) (ts : List (Table α)) : Frame α :=
  List.insertionSort frameLe (joinAll (t.map (fun p => (p.1, [p.2]))) 1 ts)

/-- merge_series: dfs = list(series_data.values()); indexing dfs[0] raises on
an empty dict, modelled by none; otherwise the pairwise outer joins run. -/
def merge_series {α : Type} : List (Table α) → Option (Frame α)
  | [] => none
  | t :: ts => some (merge1 t ts)

/-- A row of the merged table with the four raw columns named. -/
structure RawRow (α : Type) where
  date : ℤ
  OPHNFB : FVal α
  GDP : FVal α
  CPROFIT : FVal α
  COE : FVal α
deriving DecidableEq

/-- A row after compute_transformations: the raw columns plus the five derived
columns. -/
structure TransRow (α : Type) extends RawRow α where
  prod_yoy_pct : FVal α
  profit_share_pct : FVal α
  wage_share_pct : FVal α
  d_profit_share_yoy_pp : FVal α
  d_wage_share_yoy_pp : FVal α
deriving DecidableEq

/-- Map with the position index, starting at a given offset. -/
def mapIdxFrom {β γ : Type} (f : ℕ → β → γ) : ℕ → List β → List γ
  | _, [] => []
  | i, x :: xs => f i x :: mapIdxFrom f (i + 1) xs

/-- Series.shift(4) read at row i: the column value four rows earlier, NaN for
the first four rows. -/
def colShift4 {α : Type} (col : List (FVal α)) (i : ℕ) : FVal α :=
  if i < 4 then FVal.nan else (col.get? (i - 4)).getD FVal.nan

variable {α : Type}

/-- Column OPHNFB of the merged table. -/
def ophnfbCol (df : List (RawRow α)) : List (FVal α) :=
  df.map (fun r => r.OPHNFB)

/-- Column 100 * CPROFIT / GDP, as assigned to profit_share_pct. -/
def profitShareCol [LinearOrderedField α] (df : List (RawRow α)) : List (FVal α) :=
  df.map (fun r => ((FVal.val (100 : α)).mul r.CPROFIT).div r.GDP)

/-- Column 100 * COE / GDP, as assigned to wage_share_pct. -/
def wageShareCol [LinearOrderedField α] (df : List (RawRow α)) : List (FVal α) :=
  df.map (fun r => ((FVal.val (100 : α)).mul r.COE).div r.GDP)

/-- The transformed row at index i of the merged table df: the five column
assignments of compute_transformations, with Series.shift(4) reading the
already-computed share columns. -/
def transRowAt [LinearOrderedField α] (lg : α → α) (df : List (RawRow α))
    (i : ℕ) (r : RawRow α) : TransRow α :=
  { toRawRow := r
    prod_yoy_pct := (FVal.val (100 : α)).mul
      ((FVal.applyLog lg r.OPHNFB).sub (FVal.applyLog lg (colShift4 (ophnfbCol df) i)))
    profit_share_pct := ((FVal.val (100 : α)).mul r.CPROFIT).div r.GDP
    wage_share_pct := ((FVal.val (100 : α)).mul r.COE).div r.GDP
    d_profit_share_yoy_pp :=
      (((FVal.val (100 : α)).mul r.CPROFIT).div r.GDP).sub
        (colShift4 (profitShareCol df) i)
    d_wage_share_yoy_pp :=
      (((FVal.val (100 : α)).mul r.COE).div r.GDP).sub
        (colShift4 (wageShareCol df) i) }

/-- compute_transformations: pure row-wise assignment of the five derived
columns over the merged table. -/
def compute_transformations [LinearOrderedField α] (lg : α → α)
    (df : List (RawRow α)) : List (TransRow α) :=
  mapIdxFrom (transRowAt lg df) 0 df

/-- A row of the final analysis dataset: exactly the six output columns, in
the order of the output_cols list of build_analysis_dataset. -/
structure OutRow (α : Type) where
  date : ℤ
  prod_yoy_pct : FVal α
  d_wage_share_yoy_pp : FVal α
  wage_share_pct : FVal α
  d_profit_share_yoy_pp : FVal α
  profit_share_pct : FVal α
deriving DecidableEq

/-- Restriction of a transformed row to the six output columns. -/
def selectCols (t : TransRow α) : OutRow α :=
  { date := t.date
    prod_yoy_pct := t.prod_yoy_pct
    d_wage_share_yoy_pp := t.d_wage_share_yoy_pp
    wage_share_pct := t.wage_share_pct
    d_profit_share_yoy_pp := t.d_profit_share_yoy_pp
    profit_share_pct := t.profit_share_pct }

/-- dropna predicate on an output row: true when some of the five numeric
output columns is NaN (the date key is always present). -/
def hasNa (r : OutRow α) : Bool :=
  r.prod_yoy_pct.isNan || r.d_wage_share_yoy_pp.isNan || r.wage_share_pct.isNan
    || r.d_profit_share_yoy_pp.isNan || r.profit_share_pct.isNan

/-- View of a merged-frame row (four value slots in merge order OPHNFB, GDP,
CPROFIT, COE) as a named raw row; a missing slot reads as NaN. -/
def toRawRow (p : ℤ × List (FVal α)) : RawRow α :=
  { date := p.1
    OPHNFB := (p.2.get? 0).getD FVal.nan
    GDP := (p.2.get? 1).getD FVal.nan
    CPROFIT := (p.2.get? 2).getD FVal.nan
    COE := (p.2.get? 3).getD FVal.nan }

/-- The pure core of build_analysis_dataset after the fetch/validate stage:
merge the four series in SERIES_IDS order, compute the transformations,
restrict to the six output columns, drop rows with a missing value, and
reset to a dense 0-based index (the identity on the list model). -/
def build_analysis_dataset [LinearOrderedField α] (lg : α → α)
    (ophnfb gdp cprofit coe : Table α) : List (OutRow α) :=
  let merged := merge1 ophnfb [gdp, cprofit, coe]
  let transformed := compute_transformations lg (merged.map toRawRow)
  (transformed.map selectCols).filter (fun r => !(hasNa r))

/-- Immutable record produced by fit_ols_hac (src/analysis.py); the numeric
fields live in the ordered field used to model float64. -/
structure RegressionResult (K : Type) where
  dependent_var : String
  intercept : K
  slope : K
  t_hac : K
  r2 : K
  correlation : K
  n_obs : ℕ
  maxlags : ℕ
deriving DecidableEq

variable {K : Type} [LinearOrderedField K]

/-- Sample mean of the first n entries of an array. -/
def armean (n : ℕ) (v : ℕ → K) : K := (∑ i in Finset.range n, v i) / n

/-- Centered cross moment: the numerator of sample covariance. -/
def sxy (n : ℕ) (x y : ℕ → K) : K :=
  ∑ i in Finset.range n, (x i - armean n x) * (y i - armean n y)

/-- OLS slope of y on a constant and x, in closed form. -/
def olsSlope (n : ℕ) (x y : ℕ → K) : K := sxy n x y / sxy n x x

/-- OLS intercept of y on a constant and x. -/
def olsIntercept (n : ℕ) (x y : ℕ → K) : K :=
  armean n y - olsSlope n x y * armean n x

/-- Residual of the OLS fit at observation t. -/
def resid (n : ℕ) (x y : ℕ → K) (t : ℕ) : K :=
  y t - (olsIntercept n x y + olsSlope n x y * x t)

/-- Residual sum of squares of the OLS fit. -/
def ssr (n : ℕ) (x y : ℕ → K) : K := ∑ t in Finset.range n, resid n x y t ^ 2

/-- Total (centered) sum of squares of y. -/
def sst (n : ℕ) (y : ℕ → K) : K := ∑ t in Finset.range n, (y t - armean n y) ^ 2

/-- Coefficient of determination, 1 - SS_residual / SS_total. -/
def rsquared (n : ℕ) (x y : ℕ → K) : K := 1 - ssr n x y / sst n y

/-- Pearson correlation of the raw arrays x and y (np.corrcoef), with the
square root on nonnegative arguments passed in as rsqrt. -/
def pearson (rsqrt : K → K) (n : ℕ) (x y : ℕ → K) : K :=
  sxy n x y / rsqrt (sxy n x x * sxy n y y)

/-- Entry (0,0) of the lag-l outer-product autocovariance of the score
u_t * (1, x_t): sum over t of u_t * u_(t-l). -/
def gamma00 (n : ℕ) (x y : ℕ → K) (l : ℕ) : K :=
  ∑ t in Finset.Ico l n, resid n x y t * resid n x y (t - l)

/-- Entry (0,1): sum over t of u_t * u_(t-l) * x_(t-l). -/
def gamma01 (n : ℕ) (x y : ℕ → K) (l : ℕ) : K :=
  ∑ t in Finset.Ico l n, resid n x y t * resid n x y (t - l) * x (t - l)

/-- Entry (1,0): sum over t of u_t * u_(t-l) * x_t. -/
def gamma10 (n : ℕ) (x y : ℕ → K) (l : ℕ) : K :=
  ∑ t in Finset.Ico l n, resid n x y t * resid n x y (t - l) * x t

/-- Entry (1,1): sum over t of u_t * u_(t-l) * x_t * x_(t-l). -/
def gamma11 (n : ℕ) (x y : ℕ → K) (l : ℕ) : K :=
  ∑ t in Finset.Ico l n, resid n x y t * resid n x y (t - l) * x t * x (t - l)

/-- Bartlett (triangular) kernel weight at lag l with truncation lag L. -/
def bartlett (L l : ℕ) : K := 1 - (l : K) / ((L : K) + 1)

/-- Entry (0,0) of the kernel-weighted long-run score covariance S. -/
def hacS00 (n : ℕ) (x y : ℕ → K) (L : ℕ) : K :=
  gamma00 n x y 0 + ∑ l in Finset.Icc 1 L, bartlett L l * (2 * gamma00 n x y l)

/-- Entry (0,1) (equal to entry (1,0) by symmetry of S). -/
def hacS01 (n : ℕ) (x y : ℕ → K) (L : ℕ) : K :=
  gamma01 n x y 0 + ∑ l in Finset.Icc 1 L, bartlett L l * (gamma01 n x y l + gamma10 n x y l)

/-- Entry (1,1) of the kernel-weighted long-run score covariance S. -/
def hacS11 (n : ℕ) (x y : ℕ → K) (L : ℕ) : K :=
  gamma11 n x y 0 + ∑ l in Finset.Icc 1 L, bartlett L l * (2 * gamma11 n x y l)

/-- Determinant of X-transpose-X for X = [1 x]. -/
def xtxDet (n : ℕ) (x : ℕ → K) : K :=
  (n : K) * (∑ i in Finset.range n, x i ^ 2) - (∑ i in Finset.range n, x i) ^ 2

/-- First component of the slope row of the inverse of X-transpose-X. -/
def slopeRow0 (n : ℕ) (x : ℕ → K) : K :=
  -(∑ i in Finset.range n, x i) / xtxDet n x

/-- Second component of the slope row of the inverse of X-transpose-X. -/
def slopeRow1 (n : ℕ) (x : ℕ → K) : K := (n : K) / xtxDet n x

/-- Slope entry of the Newey-West sandwich: the inverse of X-transpose-X times
S times that inverse again, read at the slope coordinate: the HAC variance
of the slope coefficient. -/
def hacVarSlope (n : ℕ) (x y : ℕ → K) (L : ℕ) : K :=
  slopeRow0 n x ^ 2 * hacS00 n x y L
    + 2 * slopeRow0 n x * slopeRow1 n x * hacS01 n x y L
    + slopeRow1 n x ^ 2 * hacS11 n x y L

/-- HAC (Newey-West) standard error of the slope. -/
def hacSE (rsqrt : K → K) (n : ℕ) (x y : ℕ → K) (L : ℕ) : K :=
  rsqrt (hacVarSlope n x y L)

/-- fit_ols_hac: OLS of y on [const, x] plus the Newey-West HAC t-statistic of
the slope with truncation lag maxlags, Pearson correlation of the raw arrays,
the observation count, and the maxlags used.  The statsmodels OLS and HAC
fits are embedded by their closed-form textbook formulas; the square root is
threaded through as rsqrt so the engine is computable over any ordered field
and instantiates to Real.sqrt over the reals. -/
def fit_ols_hac (rsqrt : K → K) (n : ℕ) (x y : ℕ → K) (maxlags : ℕ)
    (dependent_var : String) : RegressionResult K :=
  { dependent_var := dependent_var
    intercept := olsIntercept n x y
    slope := olsSlope n x y
    t_hac := olsSlope n x y / hacSE rsqrt n x y maxlags
    r2 := rsquared n x y
    correlation := pearson rsqrt n x y
    n_obs := n
    maxlags := maxlags }

/-- Immutable record produced by run_stationarity_tests (src/stationarity.py);
the source field named variable is called varName here because variable is a
reserved word. -/
structure StationarityResult where
  varName : String
  adf_stat : ℚ
  adf_pvalue : ℚ
  adf_critical_1pct : ℚ
  adf_critical_5pct : ℚ
  kpss_stat : ℚ
  kpss_pvalue : ℚ
  kpss_critical_5pct : ℚ
  is_stationary : Bool
deriving DecidableEq

/-- The statsmodels adfuller call, abstracted as an oracle returning
(statistic, p-value, 1 percent critical value, 5 percent critical value). -/
abbrev ADFOracle := List ℚ → ℚ × ℚ × ℚ × ℚ

/-- The statsmodels kpss call, abstracted as an oracle returning
(statistic, p-value, 5 percent critical value). -/
abbrev KPSSOracle := List ℚ → ℚ × ℚ × ℚ

/-- run_adf_test: drop missing values of the one series, then call adfuller. -/
def run_adf_test (adf : ADFOracle) (series : List (Option ℚ)) : ℚ × ℚ × ℚ × ℚ :=
  adf (series.filterMap id)

/-- run_kpss_test: drop missing values of the one series, then call kpss. -/
def run_kpss_test (kpss : KPSSOracle) (series : List (Option ℚ)) : ℚ × ℚ × ℚ :=
  kpss (series.filterMap id)

/-- The three variables tested by run_stationarity_tests. -/
def stationarityVariables : List String :=
  ["prod_yoy_pct", "d_profit_share_yoy_pp", "d_wage_share_yoy_pp"]

/-- Loop body of run_stationarity_tests for one variable: run both tests on
that variable's column (df maps a variable name to its column) and combine
the verdicts: stationary iff ADF p-value < 0.05 and KPSS p-value > 0.05. -/
def testVariable (adf : ADFOracle) (kpss : KPSSOracle)
    (df : String → List (Option ℚ)) (v : String) : StationarityResult :=
  let a := run_adf_test adf (df v)
  let k := run_kpss_test kpss (df v)
  { varName := v
    adf_stat := a.1
    adf_pvalue := a.2.1
    adf_critical_1pct := a.2.2.1
    adf_critical_5pct := a.2.2.2
    kpss_stat := k.1
    kpss_pvalue := k.2.1
    kpss_critical_5pct := k.2.2
    is_stationary := decide (a.2.1 < 0.05 ∧ k.2.1 > 0.05) }

/-- run_stationarity_tests: the combined ADF and KPSS results for the three
key analysis variables. -/
def run_stationarity_tests (adf : ADFOracle) (kpss : KPSSOracle)
    (df : String → List (Option ℚ)) : List StationarityResult :=
  stationarityVariables.map (testVariable adf kpss df)

/-- The cache directory of the FRED client: the table stored for each series
identifier, none when no cache file exists. -/
abbrev CacheMap (α : Type) := String → Option (Table α)

/-- FREDClient.get_series: return the cached table when one exists (and no
forced refresh); with the network disabled a cache miss raises; otherwise
fetch from the API and write the result into the cache. -/
def get_series {α : Type} (no_network : Bool) (cache : CacheMap α)
    (fetch : String → Table α) (series_id : String) (force_refresh : Bool) :
    Except String (Table α × CacheMap α) :=
  match cache series_id, force_refresh with
  | some df, false => Except.ok (df, cache)
  | cached, _ =>
    if no_network then
      match cached with
      | some df => Except.ok (df, cache)
      | none =>
          Except.error ("No cached data for " ++ series_id ++ " and network is disabled")
    else
      let df := fetch series_id
      Except.ok (df, fun id => if id = series_id then some df else cache id)

/-- The stages of the pipeline control flow named by the design. -/
inductive Stage where
  | seriesCache : Stage
  | transformation : Stage
  | regression : Stage
  | stationarity : Stage
  | reporting : Stage
deriving DecidableEq

/-- The stages the run-all subcommand executes, read off src/cli.py: run_all
calls build_analysis_dataset (FRED client fetch, merge and transform), then
run_regressions and export_results, then create_all_plots.  Nothing in
src/cli.py imports or calls src/stationarity.py. -/
def run_all_stages : List Stage :=
  [Stage.seriesCache, Stage.transformation, Stage.regression, Stage.reporting]

/-- File written by build_analysis_dataset into the processed-output dir. -/
def build_dataset_artifacts (output_dir : String) : List String :=
  [output_dir ++ "/dshares_vs_prod.csv"]

/-- Files written by export_results (src/analysis.py). -/
def export_results_artifacts (results_dir : String) : List String :=
  [results_dir ++ "/regression_summary.json",
   results_dir ++ "/regression_summary.csv"]

/-- Files export_stationarity_results (src/stationarity.py) would write; the
function exists but no caller in the repository invokes it. -/
def export_stationarity_artifacts (results_dir : String) : List String :=
  [results_dir ++ "/stationarity_tests.json",
   results_dir ++ "/stationarity_tests.csv"]

/-- Files written by create_all_plots (src/plots.py), in call order. -/
def create_all_plots_artifacts (figures_dir processed_dir : String) : List String :=
  [figures_dir ++ "/scatter_profit_share.png",
   figures_dir ++ "/scatter_wage_share.png",
   figures_dir ++ "/scatter_combined.png",
   figures_dir ++ "/binscatter_profit_share.png",
   processed_dir ++ "/binscatter_profit.csv",
   figures_dir ++ "/binscatter_wage_share.png",
   processed_dir ++ "/binscatter_wage.csv",
   figures_dir ++ "/binscatter_combined.png"]

/-- Every file the run-all subcommand writes, per the calls in cli.run_all:
build_analysis_dataset into output_dir, export_results into results_dir,
create_all_plots into figures_dir and output_dir. -/
def run_all_artifacts (output_dir figures_dir results_dir : String) : List String :=
  build_dataset_artifacts output_dir
    ++ export_results_artifacts results_dir
    ++ create_all_plots_artifacts figures_dir output_dir

/-! Helper lemmas about the indexed map and the join lookups. -/

theorem mapIdxFrom_get {β γ : Type} (f : ℕ → β → γ) :
    ∀ (k : ℕ) (l : List β) (i : ℕ),
      (mapIdxFrom f k l).get? i = (l.get? i).map (f (k + i))
  | _, [], _ => rfl
  | _, _ :: _, 0 => rfl
  | k, _ :: xs, (i + 1) => by
      have h := mapIdxFrom_get f (k + 1) xs i
      simpa [mapIdxFrom, Nat.add_assoc, Nat.add_comm 1 i] using h

theorem mapIdxFrom_map {β γ δ : Type} (f : ℕ → β → γ) (g : γ → δ) (g0 : β → δ)
    (h : ∀ i x, g (f i x) = g0 x) :
    ∀ (k : ℕ) (l : List β), (mapIdxFrom f k l).map g = l.map g0
  | _, [] => rfl
  | k, x :: xs => by
      simp [mapIdxFrom, h k x, mapIdxFrom_map f g g0 h (k + 1) xs]

theorem compute_transformations_get {α : Type} [LinearOrderedField α]
    (lg : α → α) (df : List (RawRow α)) (i : ℕ) :
    (compute_transformations lg df).get? i = (df.get? i).map (transRowAt lg df i) := by
  have h := mapIdxFrom_get (transRowAt lg df) 0 df i
  simpa [compute_transformations] using h

/-- Claim C10: merge_series indexes the first table of the dict, so the empty
dict fails with an exception (modelled by none); every non-empty dict yields
a merged frame. -/
theorem merge_series_empty_fails_nonempty_total {α : Type} :
    merge_series ([] : List (Table α)) = none
      ∧ ∀ (t : Table α) (ts : List (Table α)), (merge_series (t :: ts)).isSome = true :=
  ⟨rfl, fun _ _ => rfl⟩

/-- Shared shape lemma for one stationarity record. -/
theorem stationarity_verdict_aux (p q : ℚ) (b : Bool)
    (hb : b = decide (p < 0.05 ∧ q > 0.05)) :
    (b = true ↔ (p < 0.05 ∧ q > 0.05))
      ∧ (p = 0.05 → b = false)
      ∧ (q = 0.05 → b = false)
      ∧ (¬(p < 0.05 ∧ q > 0.05) → b = false) := by
  subst hb
  refine ⟨by simp, ?_, ?_, ?_⟩
  · intro hp
    simp [hp]
  · intro hq
    have : ¬((0.05 : ℚ) < 0.05) := lt_irrefl _
    simp [hq, this]
  · intro hnot
    simpa using hnot

/-- Claim C8: every StationarityResult produced by run_stationarity_tests has
is_stationary equal to the conjunction (ADF p-value < 0.05) and (KPSS
p-value > 0.05); a p-value exactly at 0.05 on either side, and any
disagreement or ambiguity, yields false. -/
theorem run_stationarity_tests_verdict (adf : ADFOracle) (kpss : KPSSOracle)
    (df : String → List (Option ℚ)) (r : StationarityResult)
    (hr : r ∈ run_stationarity_tests adf kpss df) :
    (r.is_stationary = true ↔ (r.adf_pvalue < 0.05 ∧ r.kpss_pvalue > 0.05))
      ∧ (r.adf_pvalue = 0.05 → r.is_stationary = false)
      ∧ (r.kpss_pvalue = 0.05 → r.is_stationary = false)
      ∧ (¬(r.adf_pvalue < 0.05 ∧ r.kpss_pvalue > 0.05) → r.is_stationary = false) := by
  rcases List.mem_map.1 hr with ⟨v, _, hveq⟩
  subst hveq
  exact stationarity_verdict_aux _ _ _ rfl

/-- Claim C8 witness: a concrete oracle pair where the ADF p-value is 0.01 and
the KPSS p-value is 0.5, on which the verdict is true and consistent. -/
theorem run_stationarity_tests_verdict_witness :
    (testVariable (fun _ => (0, 0.01, 0, 0)) (fun _ => (0, 0.5, 0)) (fun _ => []) "prod_yoy_pct")
        ∈ run_stationarity_tests (fun _ => (0, 0.01, 0, 0)) (fun _ => (0, 0.5, 0)) (fun _ => [])
      ∧ ((testVariable (fun _ => (0, 0.01, 0, 0)) (fun _ => (0, 0.5, 0)) (fun _ => [])
          "prod_yoy_pct").is_stationary = true
        ↔ ((testVariable (fun _ => (0, 0.01, 0, 0)) (fun _ => (0, 0.5, 0)) (fun _ => [])
          "prod_yoy_pct").adf_pvalue < 0.05
          ∧ (testVariable (fun _ => (0, 0.01, 0, 0)) (fun _ => (0, 0.5, 0)) (fun _ => [])
          "prod_yoy_pct").kpss_pvalue > 0.05)) :=
  ⟨List.mem_map.2 ⟨"prod_yoy_pct", by simp [stationarityVariables], rfl⟩,
    (run_stationarity_tests_verdict (fun _ => (0, 0.01, 0, 0)) (fun _ => (0, 0.5, 0))
      (fun _ => [])
      (testVariable (fun _ => (0, 0.01, 0, 0)) (fun _ => (0, 0.5, 0)) (fun _ => []) "prod_yoy_pct")
      (List.mem_map.2 ⟨"prod_yoy_pct", by simp [stationarityVariables], rfl⟩)).1⟩

/-- Claim C9: with the network disabled, a cache miss is a fatal error whose
message names the missing series and no network fallback happens; a cache hit
is returned unchanged with no error, for any force_refresh flag. -/
theorem get_series_cache_only {α : Type} (cache : CacheMap α)
    (fetch : String → Table α) (series_id : String) (force_refresh : Bool) :
    (cache series_id = none →
      get_series true cache fetch series_id force_refresh
        = Except.error ("No cached data for " ++ series_id ++ " and network is disabled"))
      ∧ (∀ t, cache series_id = some t →
        get_series true cache fetch series_id force_refresh = Except.ok (t, cache)) := by
  constructor
  · intro h
    cases force_refresh <;> simp [get_series, h]
  · intro t h
    cases force_refresh <;> simp [get_series, h]

/-- Claim C9 witness: an empty cache misses the GDP series with the expected
message, and a one-entry cache hit is returned. -/
theorem get_series_cache_only_witness :
    ((fun _ => none : CacheMap ℚ) "GDP" = none
      ∧ get_series true (fun _ => none : CacheMap ℚ) (fun _ => []) "GDP" false
        = Except.error ("No cached data for " ++ "GDP" ++ " and network is disabled"))
      ∧ ((fun _ => some [((0 : ℤ), FVal.val (1 : ℚ))] : CacheMap ℚ) "GDP"
          = some [((0 : ℤ), FVal.val (1 : ℚ))]
        ∧ get_series true (fun _ => some [((0 : ℤ), FVal.val (1 : ℚ))] : CacheMap ℚ)
            (fun _ => []) "GDP" false
          = Except.ok ([((0 : ℤ), FVal.val (1 : ℚ))], fun _ => some [((0 : ℤ), FVal.val (1 : ℚ))])) :=
  ⟨⟨rfl, (get_series_cache_only (fun _ => none) (fun _ => []) "GDP" false).1 rfl⟩,
    ⟨rfl, (get_series_cache_only (fun _ => some [((0 : ℤ), FVal.val (1 : ℚ))])
      (fun _ => []) "GDP" false).2 [((0 : ℤ), FVal.val (1 : ℚ))] rfl⟩⟩

/-! Small algebraic facts about extended values. -/

theorem FVal.sub_nan {α : Type} [LinearOrderedField α] (x : FVal α) :
    x.sub FVal.nan = FVal.nan := by
  cases x <;> rfl

/-- Dividing 100 times a finite numerator by a (positive) zero: sign of the
numerator decides between the infinities, a zero numerator gives NaN. -/
theorem FVal.share_div_zero {α : Type} [LinearOrderedField α] (c : α) :
    ((FVal.val (100 : α)).mul (FVal.val c)).div (FVal.val 0)
      = if 0 < c then FVal.inf true else if c < 0 then FVal.inf false else FVal.nan := by
  rcases lt_trichotomy (0 : α) c with h | h | h
  · have h100 : (0 : α) < 100 * c := by positivity
    simp [FVal.mul, FVal.div, h, h100]
  · simp [FVal.mul, FVal.div, ← h]
  · have h100 : 100 * c < 0 := mul_neg_of_pos_of_neg (by norm_num) h
    have h2 : ¬(0 : α) < 100 * c := not_lt.2 h100.le
    have h3 : ¬(0 : α) < c := not_lt.2 h.le
    simp [FVal.mul, FVal.div, h2, h3, h, h100, not_lt.2 h.le]

/-- Claim C1 counterexample: run-all (src/cli.py) executes no Stationarity
Engine stage, and at the default working directories no artifact it writes is
the stationarity-summary file (json or csv) that src/stationarity.py would
produce; the claim that run-all covers every stage of the control flow and
produces a stationarity summary is false on the code. -/
theorem run_all_stationarity_counterexample :
    Stage.stationarity ∉ run_all_stages
      ∧ "results/stationarity_tests.json"
          ∉ run_all_artifacts "data/processed" "figures" "results"
      ∧ "results/stationarity_tests.csv"
          ∉ run_all_artifacts "data/processed" "figures" "results" := by
  refine ⟨by decide, ?_, ?_⟩ <;>
    simp [run_all_artifacts, build_dataset_artifacts, export_results_artifacts,
      create_all_plots_artifacts]

/-- Claim C1 amended: run-all executes the Series Cache, Transformation,
Regression and Reporting stages in order but not the Stationarity Engine; its
artifacts include the processed dataset and both regression-summary files,
and neither stationarity-summary file, at any choice of directories. -/
theorem run_all_stages_and_artifacts (output_dir figures_dir results_dir : String) :
    run_all_stages
        = [Stage.seriesCache, Stage.transformation, Stage.regression, Stage.reporting]
      ∧ Stage.stationarity ∉ run_all_stages
      ∧ (output_dir ++ "/dshares_vs_prod.csv")
          ∈ run_all_artifacts output_dir figures_dir results_dir
      ∧ (results_dir ++ "/regression_summary.json")
          ∈ run_all_artifacts output_dir figures_dir results_dir
      ∧ (results_dir ++ "/regression_summary.csv")
          ∈ run_all_artifacts output_dir figures_dir results_dir
      ∧ (∀ s ∈ export_stationarity_artifacts "results",
          s ∉ run_all_artifacts "data/processed" "figures" "results") := by
  refine ⟨rfl, by decide, ?_, ?_, ?_, ?_⟩
  · simp [run_all_artifacts, build_dataset_artifacts]
  · simp [run_all_artifacts, export_results_artifacts]
  · simp [run_all_artifacts, export_results_artifacts]
  · intro s hs
    simp only [export_stationarity_artifacts, List.mem_cons, List.not_mem_nil,
      or_false] at hs
    rcases hs with h | h <;> subst h <;>
      simp [run_all_artifacts, build_dataset_artifacts, export_results_artifacts,
        create_all_plots_artifacts]

/-- Concrete eight-quarter merged table over the rationals, all columns 1
except a zero GDP in the last row. -/
def c2row (d : ℤ) (g : ℚ) : RawRow ℚ :=
  { date := d
    OPHNFB := FVal.val 1
    GDP := FVal.val g
    CPROFIT := FVal.val 1
    COE := FVal.val 1 }

/-- Eight rows dated 0..7; GDP is zero at row 7 only. -/
def c2df : List (RawRow ℚ) :=
  [c2row 0 1, c2row 1 1, c2row 2 1, c2row 3 1,
   c2row 4 1, c2row 5 1, c2row 6 1, c2row 7 0]

/-- Claim C2 counterexample: on the concrete table c2df the row with zero GDP
gets a profit share of plus infinity, which is not a missing value, and the
row survives the drop-missing step (its six output columns are all non-NaN),
so a zero GDP does not propagate as a missing value and the row is not
removed. -/
theorem gdp_zero_share_not_missing_counterexample :
    ((c2df.get? 7).map (fun r => r.GDP) = some (FVal.val 0))
      ∧ (((compute_transformations id c2df).get? 7).map
          (fun t => t.profit_share_pct) = some (FVal.inf true))
      ∧ (((compute_transformations id c2df).get? 7).map
          (fun t => t.profit_share_pct.isNan) = some false)
      ∧ (((compute_transformations id c2df).get? 7).map
          (fun t => hasNa (selectCols t)) = some false) := by
  refine ⟨rfl, ?_, ?_, ?_⟩ <;>
    norm_num [compute_transformations, mapIdxFrom, c2df, c2row, transRowAt,
      FVal.mul, FVal.div, FVal.sub, FVal.applyLog, FVal.isNan, colShift4,
      ophnfbCol, profitShareCol, wageShareCol, hasNa, selectCols]

/-- Claim C2 amended: the shares are 100*CPROFIT/GDP and 100*COE/GDP and the
computation on a zero-GDP row is total (no crash), but the affected share is
plus or minus infinity when its numerator is nonzero — an infinity is not a
missing value, so such a row is not removed by the drop-missing step on
account of that column; the share is missing only when the numerator is zero
as well. -/
theorem compute_transformations_gdp_zero {α : Type} [LinearOrderedField α]
    (lg : α → α) (df : List (RawRow α)) (i : ℕ) (r : RawRow α) (c w : α)
    (hi : df.get? i = some r) (hg : r.GDP = FVal.val 0)
    (hc : r.CPROFIT = FVal.val c) (hw : r.COE = FVal.val w) :
    ((compute_transformations lg df).get? i = some (transRowAt lg df i r))
      ∧ (transRowAt lg df i r).profit_share_pct
          = (if 0 < c then FVal.inf true else if c < 0 then FVal.inf false else FVal.nan)
      ∧ (transRowAt lg df i r).wage_share_pct
          = (if 0 < w then FVal.inf true else if w < 0 then FVal.inf false else FVal.nan)
      ∧ ((transRowAt lg df i r).profit_share_pct.isNan = true ↔ c = 0)
      ∧ ((transRowAt lg df i r).wage_share_pct.isNan = true ↔ w = 0) := by
  have h1 : (compute_transformations lg df).get? i = some (transRowAt lg df i r) := by
    rw [compute_transformations_get, hi]
    rfl
  have hp : (transRowAt lg df i r).profit_share_pct
      = if 0 < c then FVal.inf true else if c < 0 then FVal.inf false else FVal.nan := by
    show ((FVal.val (100 : α)).mul r.CPROFIT).div r.GDP = _
    rw [hg, hc, FVal.share_div_zero]
  have hww : (transRowAt lg df i r).wage_share_pct
      = if 0 < w then FVal.inf true else if w < 0 then FVal.inf false else FVal.nan := by
    show ((FVal.val (100 : α)).mul r.COE).div r.GDP = _
    rw [hg, hw, FVal.share_div_zero]
  refine ⟨h1, hp, hww, ?_, ?_⟩
  · rw [hp]
    rcases lt_trichotomy (0 : α) c with h | h | h
    · simp [h, FVal.isNan, h.ne']
    · simp [← h, FVal.isNan]
    · have h2 : ¬(0 : α) < c := not_lt.2 h.le
      simp [h2, h, FVal.isNan, ne_of_lt h]
  · rw [hww]
    rcases lt_trichotomy (0 : α) w with h | h | h
    · simp [h, FVal.isNan, h.ne']
    · simp [← h, FVal.isNan]
    · have h2 : ¬(0 : α) < w := not_lt.2 h.le
      simp [h2, h, FVal.isNan, ne_of_lt h]

/-- Claim C2 amended witness: row 7 of c2df has GDP zero and numerators one,
and the theorem evaluates its shares to plus infinity, not missing. -/
theorem compute_transformations_gdp_zero_witness :
    (c2df.get? 7 = some (c2row 7 0)
        ∧ (c2row 7 0).GDP = FVal.val 0
        ∧ (c2row 7 0).CPROFIT = FVal.val 1
        ∧ (c2row 7 0).COE = FVal.val 1)
      ∧ (transRowAt id c2df 7 (c2row 7 0)).profit_share_pct
          = (if (0 : ℚ) < 1 then FVal.inf true else if (1 : ℚ) < 0 then FVal.inf false
              else FVal.nan) :=
  ⟨⟨rfl, rfl, rfl, rfl⟩,
    (compute_transformations_gdp_zero id c2df 7 (c2row 7 0) 1 1 rfl rfl rfl rfl).2.1⟩

/-- Claim C3: prod_yoy_pct at row i equals 100*(ln OPHNFB[i] - ln OPHNFB[i-4])
for i at least 4 (with positive observations present at both rows), and is
NaN — not zero, and no error since the function is total — for i < 4. -/
theorem compute_transformations_prod_yoy (df : List (RawRow ℝ)) (i : ℕ)
    (r : RawRow ℝ) (hi : df.get? i = some r) :
    ((compute_transformations Real.log df).get? i = some (transRowAt Real.log df i r))
      ∧ (i < 4 → (transRowAt Real.log df i r).prod_yoy_pct = FVal.nan
          ∧ (transRowAt Real.log df i r).prod_yoy_pct ≠ FVal.val 0)
      ∧ (∀ (r4 : RawRow ℝ) (a b : ℝ), 4 ≤ i → df.get? (i - 4) = some r4 →
          r.OPHNFB = FVal.val a → r4.OPHNFB = FVal.val b → 0 < a → 0 < b →
          (transRowAt Real.log df i r).prod_yoy_pct
            = FVal.val (100 * (Real.log a - Real.log b))) := by
  have h1 : (compute_transformations Real.log df).get? i
      = some (transRowAt Real.log df i r) := by
    rw [compute_transformations_get, hi]
    rfl
  refine ⟨h1, ?_, ?_⟩
  · intro hlt
    have hnan : (transRowAt Real.log df i r).prod_yoy_pct = FVal.nan := by
      show (FVal.val (100 : ℝ)).mul ((FVal.applyLog Real.log r.OPHNFB).sub
        (FVal.applyLog Real.log (colShift4 (ophnfbCol df) i))) = FVal.nan
      rw [colShift4, if_pos hlt]
      simp [FVal.applyLog, FVal.sub_nan, FVal.mul]
    refine ⟨hnan, ?_⟩
    rw [hnan]
    simp
  · intro r4 a b hge h4 ha hb hpa hpb
    have hx : colShift4 (ophnfbCol df) i = FVal.val b := by
      rw [colShift4, if_neg (not_lt.2 hge), ophnfbCol, List.get?_map, h4]
      simp [hb]
    show (FVal.val (100 : ℝ)).mul ((FVal.applyLog Real.log r.OPHNFB).sub
      (FVal.applyLog Real.log (colShift4 (ophnfbCol df) i))) = _
    rw [hx, ha]
    simp [FVal.applyLog, hpa, hpb, FVal.sub, FVal.mul]

/-- Concrete five-quarter table over the reals: OPHNFB is 1 in the first four
rows and 2 in the fifth. -/
def c3row (d : ℤ) (v : ℝ) : RawRow ℝ :=
  { date := d
    OPHNFB := FVal.val v
    GDP := FVal.val 1
    CPROFIT := FVal.val 1
    COE := FVal.val 1 }

/-- Five rows dated 0..4 for the productivity-growth witness. -/
def c3df : List (RawRow ℝ) :=
  [c3row 0 1, c3row 1 1, c3row 2 1, c3row 3 1, c3row 4 2]

/-- Claim C3 witness: at row 4 of c3df the productivity growth column equals
100*(ln 2 - ln 1). -/
theorem compute_transformations_prod_yoy_witness :
    (c3df.get? 4 = some (c3row 4 2) ∧ c3df.get? 0 = some (c3row 0 1)
        ∧ (0 : ℝ) < 2 ∧ (0 : ℝ) < 1)
      ∧ (transRowAt Real.log c3df 4 (c3row 4 2)).prod_yoy_pct
          = FVal.val (100 * (Real.log 2 - Real.log 1)) :=
  ⟨⟨rfl, rfl, by norm_num, by norm_num⟩,
    (compute_transformations_prod_yoy c3df 4 (c3row 4 2) rfl).2.2 (c3row 0 1) 2 1
      (by norm_num) rfl rfl rfl (by norm_num) (by norm_num)⟩

/-- Claim C4: the year-over-year share-delta columns at row i equal the share
column at i minus the share column at i-4 whenever i is at least 4 (and row
i-4 exists), and are NaN for i < 4. -/
theorem compute_transformations_deltas {α : Type} [LinearOrderedField α]
    (lg : α → α) (df : List (RawRow α)) (i : ℕ) (r : RawRow α)
    (hi : df.get? i = some r) :
    ((compute_transformations lg df).get? i = some (transRowAt lg df i r))
      ∧ (i < 4 → (transRowAt lg df i r).d_profit_share_yoy_pp = FVal.nan
          ∧ (transRowAt lg df i r).d_wage_share_yoy_pp = FVal.nan)
      ∧ (∀ r4, 4 ≤ i → df.get? (i - 4) = some r4 →
          (transRowAt lg df i r).d_profit_share_yoy_pp
            = (transRowAt lg df i r).profit_share_pct.sub
                (transRowAt lg df (i - 4) r4).profit_share_pct
          ∧ (transRowAt lg df i r).d_wage_share_yoy_pp
            = (transRowAt lg df i r).wage_share_pct.sub
                (transRowAt lg df (i - 4) r4).wage_share_pct) := by
  have h1 : (compute_transformations lg df).get? i = some (transRowAt lg df i r) := by
    rw [compute_transformations_get, hi]
    rfl
  refine ⟨h1, ?_, ?_⟩
  · intro hlt
    constructor
    · show ((((FVal.val (100 : α)).mul r.CPROFIT).div r.GDP).sub
        (colShift4 (profitShareCol df) i)) = FVal.nan
      rw [colShift4, if_pos hlt, FVal.sub_nan]
    · show ((((FVal.val (100 : α)).mul r.COE).div r.GDP).sub
        (colShift4 (wageShareCol df) i)) = FVal.nan
      rw [colShift4, if_pos hlt, FVal.sub_nan]
  · intro r4 hge h4
    constructor
    · show ((((FVal.val (100 : α)).mul r.CPROFIT).div r.GDP).sub
        (colShift4 (profitShareCol df) i)) = _
      rw [colShift4, if_neg (not_lt.2 hge), profitShareCol, List.get?_map, h4]
      rfl
    · show ((((FVal.val (100 : α)).mul r.COE).div r.GDP).sub
        (colShift4 (wageShareCol df) i)) = _
      rw [colShift4, if_neg (not_lt.2 hge), wageShareCol, List.get?_map, h4]
      rfl

/-- Claim C4 witness: at row 4 of c2df the profit-share delta equals the
profit share at row 4 minus the profit share at row 0. -/
theorem compute_transformations_deltas_witness :
    (c2df.get? 4 = some (c2row 4 1) ∧ c2df.get? 0 = some (c2row 0 1))
      ∧ (transRowAt id c2df 4 (c2row 4 1)).d_profit_share_yoy_pp
          = (transRowAt id c2df 4 (c2row 4 1)).profit_share_pct.sub
              (transRowAt id c2df 0 (c2row 0 1)).profit_share_pct :=
  ⟨⟨rfl, rfl⟩,
    ((compute_transformations_deltas id c2df 4 (c2row 4 1) rfl).2.2 (c2row 0 1)
      (by norm_num) rfl).1⟩

/-! Correctness of the outer merge. -/

theorem lookupDate_of_not_mem {α : Type} {t : Table α} {d : ℤ}
    (hd : d ∉ t.map Prod.fst) : lookupDate t d = FVal.nan := by
  rw [lookupDate]
  have hfind : t.find? (fun p => p.1 == d) = none := by
    refine List.find?_eq_none.2 (fun p hp => ?_)
    simp only [beq_iff_eq]
    intro hpd
    exact hd (hpd ▸ List.mem_map_of_mem Prod.fst hp)
  rw [hfind]

theorem lookupDate_of_mem {α : Type} {t : Table α}
    (hnd : (t.map Prod.fst).Nodup) {p : ℤ × FVal α} (hp : p ∈ t) :
    lookupDate t p.1 = p.2 := by
  induction t with
  | nil => cases hp
  | cons q u ih =>
    rcases List.mem_cons.1 hp with hqp | hp'
    · subst hqp
      rw [lookupDate, List.find?_cons_of_pos _ (by simp)]
    · have hcons : ((q :: u).map Prod.fst) = q.1 :: u.map Prod.fst := rfl
      rw [hcons] at hnd
      have hni : q.1 ∉ u.map Prod.fst := (List.nodup_cons.1 hnd).1
      have htail : (u.map Prod.fst).Nodup := (List.nodup_cons.1 hnd).2
      have hq : ¬(q.1 = p.1) := by
        intro he
        exact hni (he ▸ List.mem_map_of_mem _ hp')
      rw [lookupDate, List.find?_cons_of_neg _ (by simp [hq])]
      rw [← lookupDate]
      exact ih htail hp' 

theorem frame_any_date {α : Type} (m : Frame α) (d : ℤ) :
    (m.any fun r => r.1 == d) = true ↔ d ∈ m.map Prod.fst := by
  simp only [List.any_eq_true, beq_iff_eq, List.mem_map]

/-- Invariant of the fold of outer joins: the frame m holds the tables P
joined so far — every row has one slot per table, dates are unique, the date
set is the union of the tables' date sets, and slot j of a row holds the
join-key lookup of table j at that row's date. -/
def JoinInv {α : Type} (P : List (Table α)) (m : Frame α) : Prop :=
  (∀ r ∈ m, r.2.length = P.length)
    ∧ (m.map Prod.fst).Nodup
    ∧ (∀ d : ℤ, d ∈ m.map Prod.fst ↔ ∃ t ∈ P, d ∈ t.map Prod.fst)
    ∧ (∀ r ∈ m, ∀ j, ∀ hj : j < P.length,
        (r.2.get? j).getD FVal.nan = lookupDate (P.get ⟨j, hj⟩) r.1)

theorem joinInv_init {α : Type} (t : Table α) (hnd : (t.map Prod.fst).Nodup) :
    JoinInv [t] (t.map (fun p => (p.1, [p.2]))) := by
  refine ⟨?_, ?_, ?_, ?_⟩
  · intro r hr
    rcases List.mem_map.1 hr with ⟨p, _, rfl⟩
    rfl
  · have hmm : (t.map (fun p : ℤ × FVal α => (p.1, [p.2]))).map Prod.fst
        = t.map Prod.fst := by
      simp [List.map_map, Function.comp]
    rw [hmm]
    exact hnd
  · intro d
    constructor
    · intro hd
      rcases List.mem_map.1 hd with ⟨r, hr, rfl⟩
      rcases List.mem_map.1 hr with ⟨p, hp, rfl⟩
      exact ⟨t, by simp, List.mem_map_of_mem _ hp⟩
    · rintro ⟨u, hu, hd⟩
      have hut : u = t := by simpa using hu
      rw [hut] at hd
      rcases List.mem_map.1 hd with ⟨p, hp, rfl⟩
      have : (p.1, [p.2]) ∈ t.map (fun q : ℤ × FVal α => (q.1, [q.2])) :=
        List.mem_map_of_mem _ hp
      simpa using List.mem_map_of_mem Prod.fst this
  · intro r hr j hj
    rcases List.mem_map.1 hr with ⟨p, hp, rfl⟩
    have hj0 : j = 0 := by
      simpa using Nat.lt_one_iff.1 (by simpa using hj)
    subst hj0
    simpa using (lookupDate_of_mem hnd hp).symm

theorem joinInv_step {α : Type} {P : List (Table α)} {m : Frame α}
    (hinv : JoinInv P m) (t : Table α) (hndt : (t.map Prod.fst).Nodup) :
    JoinInv (P ++ [t]) (outerJoin m P.length t) := by
  obtain ⟨hlen, hnodup, hiff, hval⟩ := hinv
  have hmapA : (m.map (fun r : ℤ × List (FVal α) =>
      (r.1, r.2 ++ [lookupDate t r.1]))).map Prod.fst = m.map Prod.fst := by
    simp [List.map_map, Function.comp]
  have hBsub : ((t.filter (fun p => !(m.any (fun r => r.1 == p.1)))).map
      Prod.fst).Sublist (t.map Prod.fst) :=
    (List.filter_sublist t).map Prod.fst
  have hmapB : ((t.filter (fun p => !(m.any (fun r => r.1 == p.1)))).map
      (fun p : ℤ × FVal α => (p.1, List.replicate P.length FVal.nan ++ [p.2]))).map
        Prod.fst
      = (t.filter (fun p => !(m.any (fun r => r.1 == p.1)))).map Prod.fst := by
    simp [List.map_map, Function.comp]
  refine ⟨?_, ?_, ?_, ?_⟩
  · intro r hr
    rcases List.mem_append.1 hr with hA | hB
    · rcases List.mem_map.1 hA with ⟨s, hs, rfl⟩
      simp [hlen s hs]
    · rcases List.mem_map.1 hB with ⟨p, _, rfl⟩
      simp
  · rw [outerJoin, List.map_append, hmapA, hmapB]
    refine List.Nodup.append hnodup (hBsub.nodup hndt) ?_
    intro d hdA hdB
    rcases List.mem_map.1 hdB with ⟨p, hpB, rfl⟩
    have hpf := (List.mem_filter.1 hpB).2
    rw [(frame_any_date m p.1).2 hdA] at hpf
    exact absurd hpf (by decide)
  · intro d
    rw [outerJoin, List.map_append, hmapA, hmapB, List.mem_append]
    constructor
    · rintro (hdm | hdB)
      · rcases (hiff d).1 hdm with ⟨u, hu, hdu⟩
        exact ⟨u, List.mem_append_left _ hu, hdu⟩
      · rcases List.mem_map.1 hdB with ⟨p, hpB, rfl⟩
        exact ⟨t, List.mem_append_right _ (by simp),
          List.mem_map_of_mem _ (List.mem_filter.1 hpB).1⟩
    · rintro ⟨u, hu, hdu⟩
      rcases List.mem_append.1 hu with huP | hut
      · exact Or.inl ((hiff d).2 ⟨u, huP, hdu⟩)
      · have hut2 : u = t := by simpa using hut
        rw [hut2] at hdu
        by_cases hdm : d ∈ m.map Prod.fst
        · exact Or.inl hdm
        · refine Or.inr ?_
          rcases List.mem_map.1 hdu with ⟨p, hp, rfl⟩
          refine List.mem_map_of_mem _ (List.mem_filter.2 ⟨hp, ?_⟩)
          have hany : (m.any fun r => r.1 == p.1) = false := by
            by_contra hx
            exact hdm ((frame_any_date m p.1).1 (by simpa using hx))
          simp [hany]
  · intro r hr j hj
    have hjlen : j < P.length + 1 := by simpa using hj
    rcases List.mem_append.1 hr with hA | hB
    · rcases List.mem_map.1 hA with ⟨s, hs, rfl⟩
      rcases Nat.lt_succ_iff_lt_or_eq.1 hjlen with hjP | hjP
      · have hgets : (s.2 ++ [lookupDate t s.1]).get? j = s.2.get? j :=
          List.get?_append (by rw [hlen s hs]; exact hjP)
        have hPg : (P ++ [t]).get ⟨j, hj⟩ = P.get ⟨j, hjP⟩ := List.get_append j hjP
        show ((s.2 ++ [lookupDate t s.1]).get? j).getD FVal.nan = _
        rw [hgets, hPg]
        exact hval s hs j hjP
      · subst hjP
        have hgets : (s.2 ++ [lookupDate t s.1]).get? P.length
            = some (lookupDate t s.1) := by
          rw [List.get?_append_right (by rw [hlen s hs]), hlen s hs]
          simp
        have hPg : (P ++ [t]).get ⟨P.length, hj⟩ = t := by
          simp [List.get_eq_getElem]
        show ((s.2 ++ [lookupDate t s.1]).get? P.length).getD FVal.nan = _
        rw [hgets, hPg]
        rfl
    · rcases List.mem_map.1 hB with ⟨p, hpB, rfl⟩
      have hpmem := (List.mem_filter.1 hpB).1
      have hnotm : p.1 ∉ m.map Prod.fst := by
        intro hx
        have h1 := (List.mem_filter.1 hpB).2
        rw [(frame_any_date m p.1).2 hx] at h1
        exact absurd h1 (by decide)
      rcases Nat.lt_succ_iff_lt_or_eq.1 hjlen with hjP | hjP
      · have hget : ((List.replicate P.length (FVal.nan : FVal α) ++ [p.2]).get? j)
            = some FVal.nan := by
          rw [List.get?_append (by simpa using hjP)]
          simp [List.get?_eq_getElem?, List.getElem?_replicate, hjP]
        have hPg : (P ++ [t]).get ⟨j, hj⟩ = P.get ⟨j, hjP⟩ := List.get_append j hjP
        show ((List.replicate P.length FVal.nan ++ [p.2]).get? j).getD FVal.nan = _
        rw [hget, hPg]
        have hmemP : P.get ⟨j, hjP⟩ ∈ P := List.get_mem _ _ _
        have hnP : p.1 ∉ (P.get ⟨j, hjP⟩).map Prod.fst := by
          intro hx
          exact hnotm ((hiff p.1).2 ⟨_, hmemP, hx⟩)
        rw [lookupDate_of_not_mem hnP]
        rfl
      · subst hjP
        have hget : ((List.replicate P.length (FVal.nan : FVal α) ++ [p.2]).get?
            P.length) = some p.2 := by
          rw [List.get?_append_right (by simp)]
          simp
        have hPg : (P ++ [t]).get ⟨P.length, hj⟩ = t := by
          simp [List.get_eq_getElem]
        show ((List.replicate P.length FVal.nan ++ [p.2]).get? P.length).getD
          FVal.nan = _
        rw [hget, hPg, lookupDate_of_mem hndt hpmem]
        rfl

theorem joinInv_joinAll {α : Type} :
    ∀ (ts : List (Table α)) (P : List (Table α)) (m : Frame α),
      JoinInv P m → (∀ t ∈ ts, (t.map Prod.fst).Nodup) →
      JoinInv (P ++ ts) (joinAll m P.length ts)
  | [], P, m, h, _ => by simpa [joinAll] using h
  | t :: ts, P, m, h, hnd => by
    have hstep := joinInv_step h t (hnd t (by simp))
    have hrec := joinInv_joinAll ts (P ++ [t]) (outerJoin m P.length t) hstep
      (fun u hu => hnd u (by simp [hu]))
    rw [joinAll]
    have hl : (P ++ [t]).length = P.length + 1 := by simp
    rw [hl] at hrec
    have ha : (P ++ [t]) ++ ts = P ++ (t :: ts) := by simp
    rw [ha] at hrec
    exact hrec

theorem joinInv_perm {α : Type} {P : List (Table α)} {m m' : Frame α}
    (h : JoinInv P m) (hp : m.Perm m') : JoinInv P m' := by
  obtain ⟨hlen, hnodup, hiff, hval⟩ := h
  refine ⟨fun r hr => hlen r (hp.symm.subset hr),
    ((hp.map Prod.fst).nodup_iff).1 hnodup, ?_,
    fun r hr => hval r (hp.symm.subset hr)⟩
  intro d
  rw [← (hp.map Prod.fst).mem_iff]
  exact hiff d

theorem merge1_spec {α : Type} (t : Table α) (ts : List (Table α))
    (hnd : ∀ u ∈ t :: ts, (u.map Prod.fst).Nodup) :
    JoinInv (t :: ts) (merge1 t ts)
      ∧ ((merge1 t ts).map Prod.fst).Sorted (· ≤ ·) := by
  have hinit := joinInv_init t (hnd t (by simp))
  have hall := joinInv_joinAll ts [t] _ hinit (fun u hu => hnd u (by simp [hu]))
  have hall2 : JoinInv (t :: ts) (joinAll (t.map fun p => (p.1, [p.2])) 1 ts) := by
    simpa using hall
  have hperm : (joinAll (t.map fun p => (p.1, [p.2])) 1 ts).Perm (merge1 t ts) :=
    (List.perm_insertionSort frameLe _).symm
  refine ⟨joinInv_perm hall2 hperm, ?_⟩
  have hs : (merge1 t ts).Sorted frameLe := List.sorted_insertionSort frameLe _
  exact List.pairwise_map.2 (hs.imp (fun h => h))

/-- Claim C6: for every non-empty collection of series tables with unique
dates and non-missing observations, merge_series returns the outer join on
date: the merged dates are exactly the union of the input date sets, without
duplicates and sorted ascending, every row has one slot per table, slot j of
a row holds table j's observation at that row's date, and that slot is NaN
exactly when table j has no observation at that date. -/
theorem merge_series_outer_join {α : Type} (ts : List (Table α))
    (hne : ts ≠ [])
    (hnd : ∀ t ∈ ts, (t.map Prod.fst).Nodup)
    (hnn : ∀ t ∈ ts, ∀ p ∈ t, (p.2).isNan = false) :
    ∃ m, merge_series ts = some m
      ∧ ((m.map Prod.fst).Sorted (· ≤ ·))
      ∧ (m.map Prod.fst).Nodup
      ∧ (∀ d : ℤ, d ∈ m.map Prod.fst ↔ ∃ t ∈ ts, d ∈ t.map Prod.fst)
      ∧ (∀ r ∈ m, r.2.length = ts.length)
      ∧ (∀ r ∈ m, ∀ j, ∀ hj : j < ts.length,
          ((r.2.get? j).getD FVal.nan = lookupDate (ts.get ⟨j, hj⟩) r.1)
          ∧ (((r.2.get? j).getD FVal.nan).isNan = true
              ↔ r.1 ∉ (ts.get ⟨j, hj⟩).map Prod.fst)) := by
  match ts, hne with
  | t :: rest, _ =>
    obtain ⟨⟨hlen, hnodup, hiff, hval⟩, hsorted⟩ := merge1_spec t rest hnd
    refine ⟨merge1 t rest, rfl, hsorted, hnodup, hiff, hlen, ?_⟩
    intro r hr j hj
    have hv := hval r hr j hj
    refine ⟨hv, ?_⟩
    rw [hv]
    by_cases hmem : r.1 ∈ ((t :: rest).get ⟨j, hj⟩).map Prod.fst
    · rcases List.mem_map.1 hmem with ⟨p, hp, hpd⟩
      have hlook : lookupDate ((t :: rest).get ⟨j, hj⟩) r.1 = p.2 := by
        rw [← hpd]
        exact lookupDate_of_mem (hnd _ (List.get_mem _ _ _)) hp
      rw [hlook]
      have hfalse : (p.2).isNan = false :=
        hnn _ (List.get_mem _ _ _) p hp
      constructor
      · intro hx
        rw [hfalse] at hx
        exact absurd hx (by decide)
      · intro hx
        exact absurd hmem hx
    · rw [lookupDate_of_not_mem hmem]
      exact ⟨fun _ => hmem, fun _ => rfl⟩

/-- Concrete pair of tables with partially overlapping dates for the merge
witness. -/
def c6tables : List (Table ℚ) :=
  [[((0 : ℤ), FVal.val (1 : ℚ)), ((1 : ℤ), FVal.val (2 : ℚ))],
   [((1 : ℤ), FVal.val (3 : ℚ)), ((2 : ℤ), FVal.val (4 : ℚ))]]

/-- Claim C6 witness: the two concrete overlapping tables satisfy the
hypotheses and produce a sorted outer join on the date union. -/
theorem merge_series_outer_join_witness :
    (c6tables ≠ []
        ∧ (∀ t ∈ c6tables, (t.map Prod.fst).Nodup)
        ∧ (∀ t ∈ c6tables, ∀ p ∈ t, (p.2).isNan = false))
      ∧ (∃ m, merge_series c6tables = some m
          ∧ ((m.map Prod.fst).Sorted (· ≤ ·))
          ∧ (m.map Prod.fst).Nodup
          ∧ (∀ d : ℤ, d ∈ m.map Prod.fst ↔ ∃ t ∈ c6tables, d ∈ t.map Prod.fst)
          ∧ (∀ r ∈ m, r.2.length = c6tables.length)
          ∧ (∀ r ∈ m, ∀ j, ∀ hj : j < c6tables.length,
              ((r.2.get? j).getD FVal.nan = lookupDate (c6tables.get ⟨j, hj⟩) r.1)
              ∧ (((r.2.get? j).getD FVal.nan).isNan = true
                  ↔ r.1 ∉ (c6tables.get ⟨j, hj⟩).map Prod.fst))) :=
  ⟨⟨by simp [c6tables], by decide, by decide⟩,
    merge_series_outer_join c6tables (by simp [c6tables]) (by decide) (by decide)⟩

/-- Claim C5: build_analysis_dataset restricts the transformed table to
exactly the six output columns (the OutRow record, in output_cols order),
drops every row with a missing value in any of them — so the result carries
no missing values — and is sorted ascending by date; the dense 0-based row
index is the positional indexing of the result list (reset_index drops the
old index). -/
theorem build_analysis_dataset_clean {α : Type} [LinearOrderedField α]
    (lg : α → α) (ophnfb gdp cprofit coe : Table α) :
    ((build_analysis_dataset lg ophnfb gdp cprofit coe).all
        (fun r => !(hasNa r)) = true)
      ∧ ((build_analysis_dataset lg ophnfb gdp cprofit coe).map
          OutRow.date).Sorted (· ≤ ·) := by
  have hbuild : build_analysis_dataset lg ophnfb gdp cprofit coe
      = ((compute_transformations lg
            ((merge1 ophnfb [gdp, cprofit, coe]).map toRawRow)).map
          selectCols).filter (fun r => !(hasNa r)) := rfl
  constructor
  · refine List.all_eq_true.2 (fun r hr => ?_)
    rw [hbuild] at hr
    exact (List.mem_filter.1 hr).2
  · rw [hbuild]
    have hm : (merge1 ophnfb [gdp, cprofit, coe]).Sorted frameLe :=
      List.sorted_insertionSort frameLe _
    have hdfp : ((merge1 ophnfb [gdp, cprofit, coe]).map toRawRow).Pairwise
        (fun a b : RawRow α => a.date ≤ b.date) :=
      List.pairwise_map.2 (hm.imp (fun h => h))
    have hdates : (compute_transformations lg
          ((merge1 ophnfb [gdp, cprofit, coe]).map toRawRow)).map
            (fun t => t.date)
        = ((merge1 ophnfb [gdp, cprofit, coe]).map toRawRow).map
            (fun r => r.date) := by
      rw [compute_transformations]
      exact mapIdxFrom_map
        (transRowAt lg ((merge1 ophnfb [gdp, cprofit, coe]).map toRawRow))
        (fun t => t.date) (fun r => r.date) (fun _ _ => rfl) 0 _
    have hcompP : (compute_transformations lg
        ((merge1 ophnfb [gdp, cprofit, coe]).map toRawRow)).Pairwise
          (fun a b : TransRow α => a.date ≤ b.date) := by
      have h1 : ((compute_transformations lg
            ((merge1 ophnfb [gdp, cprofit, coe]).map toRawRow)).map
              (fun t => t.date)).Pairwise ((· ≤ ·) : ℤ → ℤ → Prop) := by
        rw [hdates]
        exact List.pairwise_map.2 hdfp
      exact List.pairwise_map.1 h1
    have hSP : ((compute_transformations lg
        ((merge1 ophnfb [gdp, cprofit, coe]).map toRawRow)).map
          selectCols).Pairwise (fun a b : OutRow α => a.date ≤ b.date) :=
      List.pairwise_map.2 (hcompP.imp (fun h => h))
    have hBP := hSP.filter (fun r => !(hasNa r))
    exact List.pairwise_map.2 hBP

/-! Least-squares correctness of the closed-form OLS coefficients. -/

theorem sxy_expand {K : Type} [LinearOrderedField K] (n : ℕ) (hn : (n : K) ≠ 0)
    (x y : ℕ → K) :
    sxy n x y = (∑ i in Finset.range n, x i * y i)
      - (∑ i in Finset.range n, x i) * (∑ i in Finset.range n, y i) / n := by
  unfold sxy armean
  have h1 : ∀ i ∈ Finset.range n,
      (x i - (∑ j in Finset.range n, x j) / n)
          * (y i - (∑ j in Finset.range n, y j) / n)
        = x i * y i - x i * ((∑ j in Finset.range n, y j) / n)
          + ((∑ j in Finset.range n, x j) / n) * ((∑ j in Finset.range n, y j) / n)
          - ((∑ j in Finset.range n, x j) / n) * y i := by
    intro i _
    ring
  rw [Finset.sum_congr rfl h1, Finset.sum_sub_distrib, Finset.sum_add_distrib,
    Finset.sum_sub_distrib, ← Finset.sum_mul, Finset.sum_const,
    Finset.card_range, nsmul_eq_mul, ← Finset.mul_sum]
  field_simp
  ring

theorem ols_normal_eq1 {K : Type} [LinearOrderedField K] (n : ℕ)
    (hn : (n : K) ≠ 0) (x y : ℕ → K) :
    ∑ t in Finset.range n, resid n x y t = 0 := by
  unfold resid olsIntercept armean
  rw [Finset.sum_sub_distrib, Finset.sum_add_distrib, ← Finset.mul_sum,
    Finset.sum_const, Finset.card_range, nsmul_eq_mul]
  field_simp

theorem ols_normal_eq2 {K : Type} [LinearOrderedField K] (n : ℕ)
    (hn : (n : K) ≠ 0) (x y : ℕ → K) (hx : sxy n x x ≠ 0) :
    ∑ t in Finset.range n, x t * resid n x y t = 0 := by
  have hxx := sxy_expand n hn x x
  have hxy := sxy_expand n hn x y
  have hb : olsSlope n x y * sxy n x x = sxy n x y := by
    unfold olsSlope
    exact div_mul_cancel₀ _ hx
  rw [hxx, hxy] at hb
  have hexp : ∀ t ∈ Finset.range n, x t * resid n x y t
      = x t * y t - x t * ((∑ j in Finset.range n, y j) / n)
        + olsSlope n x y * ((∑ j in Finset.range n, x j) / n) * x t
        - olsSlope n x y * (x t * x t) := by
    intro t _
    unfold resid olsIntercept armean
    ring
  rw [Finset.sum_congr rfl hexp, Finset.sum_sub_distrib, Finset.sum_add_distrib,
    Finset.sum_sub_distrib, ← Finset.sum_mul, ← Finset.mul_sum, ← Finset.mul_sum]
  linear_combination -hb

/-- Claim C7: on equal-length arrays (both read on indices below n) with at
least two observations and nonzero x variance, fit_ols_hac returns the OLS
fit of y on [constant, x] — its intercept and slope satisfy both normal
equations and the slope is the least-squares slope — with R-squared equal to
1 - SS_residual/SS_total, a t-statistic equal to the slope divided by the
Newey-West HAC standard error of the slope at the requested truncation lag,
the Pearson correlation of the raw arrays, an observation count equal to the
input length, and the stored maxlags equal to the requested maxlags. -/
theorem fit_ols_hac_spec {K : Type} [LinearOrderedField K] (rsqrt : K → K)
    (n : ℕ) (x y : ℕ → K) (maxlags : ℕ) (dep : String)
    (hn : 2 ≤ n) (hx : sxy n x x ≠ 0) :
    (∑ t in Finset.range n,
        (y t - ((fit_ols_hac rsqrt n x y maxlags dep).intercept
          + (fit_ols_hac rsqrt n x y maxlags dep).slope * x t)) = 0)
      ∧ (∑ t in Finset.range n,
          x t * (y t - ((fit_ols_hac rsqrt n x y maxlags dep).intercept
            + (fit_ols_hac rsqrt n x y maxlags dep).slope * x t)) = 0)
      ∧ (fit_ols_hac rsqrt n x y maxlags dep).slope * sxy n x x = sxy n x y
      ∧ (fit_ols_hac rsqrt n x y maxlags dep).r2 = 1 - ssr n x y / sst n y
      ∧ (fit_ols_hac rsqrt n x y maxlags dep).t_hac
          = (fit_ols_hac rsqrt n x y maxlags dep).slope
            / rsqrt (hacVarSlope n x y maxlags)
      ∧ (fit_ols_hac rsqrt n x y maxlags dep).correlation
          = sxy n x y / rsqrt (sxy n x x * sxy n y y)
      ∧ (fit_ols_hac rsqrt n x y maxlags dep).n_obs = n
      ∧ (fit_ols_hac rsqrt n x y maxlags dep).maxlags = maxlags
      ∧ (fit_ols_hac rsqrt n x y maxlags dep).dependent_var = dep := by
  have hn0 : (n : K) ≠ 0 := Nat.cast_ne_zero.2 (by omega)
  refine ⟨?_, ?_, ?_, rfl, rfl, rfl, rfl, rfl, rfl⟩
  · exact ols_normal_eq1 n hn0 x y
  · exact ols_normal_eq2 n hn0 x y hx
  · show olsSlope n x y * sxy n x x = sxy n x y
    unfold olsSlope
    exact div_mul_cancel₀ _ hx

/-- Claim C7 witness: two observations with x = (0, 1), which has nonzero
variance, and the spec's slope characterization evaluated there. -/
theorem fit_ols_hac_spec_witness :
    ((2 : ℕ) ≤ 2
        ∧ sxy 2 (fun i => (i : ℚ)) (fun i => (i : ℚ)) ≠ 0)
      ∧ (fit_ols_hac id 2 (fun i => (i : ℚ)) (fun i => (i : ℚ)) 4
            "d_profit_share_yoy_pp").slope
            * sxy 2 (fun i => (i : ℚ)) (fun i => (i : ℚ))
          = sxy 2 (fun i => (i : ℚ)) (fun i => (i : ℚ))
        ∧ (fit_ols_hac id 2 (fun i => (i : ℚ)) (fun i => (i : ℚ)) 4
            "d_profit_share_yoy_pp").n_obs = 2
        ∧ (fit_ols_hac id 2 (fun i => (i : ℚ)) (fun i => (i : ℚ)) 4
            "d_profit_share_yoy_pp").maxlags = 4 :=
  ⟨⟨by norm_num,
      by norm_num [sxy, armean, Finset.sum_range_succ]⟩,
    (fit_ols_hac_spec id 2 (fun i => (i : ℚ)) (fun i => (i : ℚ)) 4
        "d_profit_share_yoy_pp" (by norm_num)
        (by norm_num [sxy, armean, Finset.sum_range_succ])).2.2.1,
    (fit_ols_hac_spec id 2 (fun i => (i : ℚ)) (fun i => (i : ℚ)) 4
        "d_profit_share_yoy_pp" (by norm_num)
        (by norm_num [sxy, armean, Finset.sum_range_succ])).2.2.2.2.2.2.1,
    (fit_ols_hac_spec id 2 (fun i => (i : ℚ)) (fun i => (i : ℚ)) 4
        "d_profit_share_yoy_pp" (by norm_num)
        (by norm_num [sxy, armean, Finset.sum_range_succ])).2.2.2.2.2.2.2.1⟩
